import Mathlib

/-!
Shallow embedding of `src/bog.py` (class `BOG_API`), a client for the BOG
buoy-telemetry API, together with proofs checking the natural-language
specification against it.

Modelling conventions:
* HTTP transport is an oracle (`Env`): for each endpoint a function from the
  request parameters to either a response (`Except.ok`) or a transport-level
  exception (`Except.error`).  Responses carry the fields the code reads:
  `ok`, `status_code`, `reason`, `text`, and the parsed JSON payload.
* Every operation returns its result together with the list of network
  requests it issued (`List Request`), so "issues no network call" claims
  are statements about that log.
* Numbers in series payloads (timestamps and values) are modelled as `ℚ`;
  pandas DataFrames are modelled as a column-name list plus row-major cells
  (`DF`).  `pd.merge(_, _, on="time")` is the inner join `pdMerge`.
* Python `assert` failures and raised exceptions are explicit constructors
  of the result types.
-/

/-- HTTP response metadata as read by the code: `r.ok`, `r.status_code`,
`r.reason`, `r.text`. -/
structure HttpMeta where
  ok : Bool
  status_code : Nat
  reason : String
  text : String
deriving DecidableEq, Repr

/-- Response of `POST {endpoint}/auth` (login): metadata plus the
`r.json()["token"]` field. -/
structure AuthResponse where
  meta : HttpMeta
  token : String
deriving DecidableEq, Repr

/-- The part of `GET /buoy/{id}/details` JSON the code reads: the
`"series"` field listing available variable names. -/
structure StatusJson where
  series : List String
deriving DecidableEq, Repr

/-- Response of `GET /buoy/{id}/details`. -/
structure StatusResponse where
  meta : HttpMeta
  json : StatusJson
deriving DecidableEq, Repr

/-- The payload `r.json()["series"]["series"]` of `GET /buoy/{id}/reports`:
a JSON object mapping variable names to `[[time, value], ...]` lists,
modelled as an insertion-ordered association list. -/
structure ReportsJson where
  series : List (String × List (ℚ × ℚ))
deriving DecidableEq, Repr

/-- Response of `GET /buoy/{id}/reports?series=...`. -/
structure ReportsResponse where
  meta : HttpMeta
  json : ReportsJson
deriving DecidableEq, Repr

/-- A network request issued by the client, one constructor per endpoint. -/
inductive Request where
  | auth
  | user
  | details (buoy_id : ℤ)
  | reports (buoy_id : ℤ) (series : List String)
  | logoutPost
deriving DecidableEq, Repr

/-- The transport oracle: responses of the server for each endpoint.
`Except.error ()` models an exception thrown by `requests.get`/`requests.post`. -/
structure Env where
  statusResp : ℤ → Except Unit StatusResponse
  reportsResp : ℤ → List String → Except Unit ReportsResponse
deriving Inhabited

/-- `MAX_API_CALLS = 3` (src/bog.py line 13). -/
def MAX_API_CALLS : ℕ := 3

/-- Outcome of `get_token`.  The `requests` field counts the `POST /auth`
login requests issued.  `authError` is the raised authentication exception
carrying `r.status_code`, `r.reason`, `r.text` of the final response;
`fellThrough` models the (unreachable) exit of the `while` loop by its
condition becoming false. -/
inductive AuthResult where
  | ok (token : String) (requests : ℕ)
  | authError (status : ℕ) (reason text : String) (requests : ℕ)
  | fellThrough (requests : ℕ)
deriving DecidableEq, Repr

/-- The `while attempt <= MAX_API_CALLS` loop of `get_token`
(src/bog.py lines 41-54), entered with the current value of `attempt`.
`resp n` is the response to the n-th login request. -/
def get_token_go (resp : ℕ → AuthResponse) (attempt : ℕ) : AuthResult :=
  if h : attempt ≤ MAX_API_CALLS then
    let a := attempt + 1
    let r := resp a
    if r.meta.ok then
      AuthResult.ok r.token a
    else if a = MAX_API_CALLS then
      AuthResult.authError r.meta.status_code r.meta.reason r.meta.text a
    else
      get_token_go resp a
  else
    AuthResult.fellThrough attempt
termination_by MAX_API_CALLS + 1 - attempt
decreasing_by omega

/-- `get_token` (src/bog.py lines 36-54): the loop starts at `attempt = 0`. -/
def get_token (resp : ℕ → AuthResponse) : AuthResult :=
  get_token_go resp 0

/-- Outcome of `get_current_status` (src/bog.py lines 82-103).
`scopeError` is the failed `assert int(buoy_id) in self.buoy_ids`;
`json` is the value returned when `r.ok`; `none_returned` is the implicit
`return None` when the response is not OK and no exception occurs;
`fetchError` is the exception re-raised by the `except` block. -/
inductive StatusResult where
  | scopeError
  | json (j : StatusJson)
  | none_returned
  | fetchError
deriving DecidableEq, Repr

/-- `get_current_status(buoy_id, check=True)` (src/bog.py lines 82-103),
over the transport oracle `env` with authorized-id set `buoy_ids`. -/
def get_current_status (env : Env) (buoy_ids : List ℤ) (buoy_id : ℤ)
    (check : Bool := true) : StatusResult × List Request :=
  if check ∧ buoy_id ∉ buoy_ids then
    (StatusResult.scopeError, [])
  else
    match env.statusResp buoy_id with
    | Except.error _ => (StatusResult.fetchError, [Request.details buoy_id])
    | Except.ok r =>
      if r.meta.ok then (StatusResult.json r.json, [Request.details buoy_id])
      else (StatusResult.none_returned, [Request.details buoy_id])

/-- The `if not series: series = available_vars` default (src/bog.py
lines 120-121 and 149-150): `None` and the empty list are both falsy and get
replaced by the available-variable list. -/
def resolveSeries (series : Option (List String)) (available_vars : List String) :
    List String :=
  match series with
  | none => available_vars
  | some l => if l.isEmpty then available_vars else l

/-- Outcome of `get_historical_data` (src/bog.py lines 106-130).
`assertError` is the failed buoy-membership assert (both the local one and
the one inside the nested `get_current_status` raise `AssertionError`);
`statusException` propagates the exception raised by the nested status call;
`statusNoneTypeError` is the `TypeError` from subscripting the `None`
returned by a non-OK status response; `json` is the value returned when
`r.ok`; `none_returned` is the implicit `return None` when the reports
response is not OK; `fetchError` is the exception raised by the
`except` block. -/
inductive HistResult where
  | assertError
  | statusException
  | statusNoneTypeError
  | json (j : ReportsJson)
  | none_returned
  | fetchError
deriving DecidableEq, Repr

/-- `get_historical_data(buoy_id, series=None)` (src/bog.py lines 106-130). -/
def get_historical_data (env : Env) (buoy_ids : List ℤ) (buoy_id : ℤ)
    (series : Option (List String)) : HistResult × List Request :=
  if buoy_id ∉ buoy_ids then
    (HistResult.assertError, [])
  else
    match get_current_status env buoy_ids buoy_id true with
    | (StatusResult.scopeError, log) => (HistResult.assertError, log)
    | (StatusResult.fetchError, log) => (HistResult.statusException, log)
    | (StatusResult.none_returned, log) => (HistResult.statusNoneTypeError, log)
    | (StatusResult.json j, log) =>
      let s := resolveSeries series j.series
      match env.reportsResp buoy_id s with
      | Except.error _ => (HistResult.fetchError, log ++ [Request.reports buoy_id s])
      | Except.ok r =>
        if r.meta.ok then (HistResult.json r.json, log ++ [Request.reports buoy_id s])
        else (HistResult.none_returned, log ++ [Request.reports buoy_id s])

/-- A pandas DataFrame: ordered column names and row-major cells.  All cells
are `ℚ` (the tables built by this program hold only numbers). -/
structure DF where
  cols : List String
  rows : List (List ℚ)
deriving DecidableEq, Repr

/-- `pd.DataFrame(data[var], columns=["time", "value"]).rename(columns={"value": var})`
(src/bog.py lines 157-158): a two-column frame for one variable's points. -/
def seriesDF (varName : String) (pts : List (ℚ × ℚ)) : DF :=
  { cols := ["time", varName], rows := pts.map fun p => [p.1, p.2] }

/-- `pd.merge(left, right, on="time")` (src/bog.py line 159): inner join on
the `"time"` column.  Result columns are the left columns followed by the
right columns minus the key; result rows pair each left row with every
right row sharing its key value, in left-major order. -/
def pdMerge (l r : DF) : DF :=
  let li := List.indexOf "time" l.cols
  let ri := List.indexOf "time" r.cols
  { cols := l.cols ++ r.cols.eraseIdx ri,
    rows := l.rows.bind fun a =>
      (r.rows.filter fun b => decide (b.get? ri = a.get? li)).map
        fun b => a ++ b.eraseIdx ri }

/-- `df.rename(columns=m)`: each column name is replaced by its image under
the dictionary `m` when present, kept otherwise. -/
def pdRename (m : List (String × String)) (d : DF) : DF :=
  { d with cols := d.cols.map fun c => (m.lookup c).getD c }

/-- The rename dictionary of `create_buoy_df` (src/bog.py lines 160-161):
`position_latitude -> buoy_lat`, `position_longitude -> buoy_lon`. -/
def renMap : List (String × String) :=
  [("position_latitude", "buoy_lat"), ("position_longitude", "buoy_lon")]

/-- The column name a payload variable ends up with after the rename. -/
def renameVar (c : String) : String :=
  (renMap.lookup c).getD c

/-- `df.insert(0, name, v)` with a scalar `v`: prepend a column holding `v`
in every row (src/bog.py line 163). -/
def pdInsert (d : DF) (name : String) (v : ℚ) : DF :=
  { cols := name :: d.cols, rows := d.rows.map fun row => v :: row }

/-- `pd.concat(dfs, ignore_index=True)` (src/bog.py line 184) for the frames
built here, which share one column list: rows are concatenated in order and
the index is reset (rows carry no index in this model). -/
def pdConcat (dfs : List DF) : DF :=
  { cols := (dfs.head?.map DF.cols).getD [], rows := dfs.bind DF.rows }

/-- The pure table-building pipeline of `create_buoy_df` on a historical
payload (src/bog.py lines 157-163): one `seriesDF` per payload variable in
insertion order, sequential inner join by `reduce`, rename of the position
columns, and the prepended `buoy_id` column.  `none` models the `TypeError`
of `reduce` on an empty frame list. -/
def buoyTableOfPayload (buoy_id : ℤ) (data : List (String × List (ℚ × ℚ))) :
    Option DF :=
  match data.map (fun p => seriesDF p.1 p.2) with
  | [] => none
  | d :: ds =>
    some (pdInsert (pdRename renMap (ds.foldl pdMerge d)) "buoy_id" (buoy_id : ℚ))

/-- Outcome of `create_buoy_df` (src/bog.py lines 134-165).
`assertError` is the failed buoy-membership assert; `invalidVariable` the
failed `set(series).issubset(available_vars)` assert; `histError` an
exception raised inside `get_historical_data`; `histNoneTypeError` the
`TypeError` from subscripting a `None` returned by `get_historical_data`;
`emptyReduce` the `TypeError` of `reduce` on no frames. -/
inductive CreateResult where
  | assertError
  | statusException
  | statusNoneTypeError
  | invalidVariable
  | histError
  | histNoneTypeError
  | emptyReduce
  | df (d : DF)
deriving DecidableEq, Repr

/-- `create_buoy_df(buoy_id, series=None)` (src/bog.py lines 134-165). -/
def create_buoy_df (env : Env) (buoy_ids : List ℤ) (buoy_id : ℤ)
    (series : Option (List String)) : CreateResult × List Request :=
  if buoy_id ∉ buoy_ids then
    (CreateResult.assertError, [])
  else
    match get_current_status env buoy_ids buoy_id true with
    | (StatusResult.scopeError, log) => (CreateResult.assertError, log)
    | (StatusResult.fetchError, log) => (CreateResult.statusException, log)
    | (StatusResult.none_returned, log) => (CreateResult.statusNoneTypeError, log)
    | (StatusResult.json j, log) =>
      let s := resolveSeries series j.series
      if ¬ (s.all fun v => v ∈ j.series) then
        (CreateResult.invalidVariable, log)
      else
        match get_historical_data env buoy_ids buoy_id (some s) with
        | (HistResult.assertError, log2) => (CreateResult.assertError, log ++ log2)
        | (HistResult.statusException, log2) => (CreateResult.statusException, log ++ log2)
        | (HistResult.statusNoneTypeError, log2) =>
          (CreateResult.statusNoneTypeError, log ++ log2)
        | (HistResult.fetchError, log2) => (CreateResult.histError, log ++ log2)
        | (HistResult.none_returned, log2) => (CreateResult.histNoneTypeError, log ++ log2)
        | (HistResult.json rj, log2) =>
          match buoyTableOfPayload buoy_id rj.series with
          | none => (CreateResult.emptyReduce, log ++ log2)
          | some d => (CreateResult.df d, log ++ log2)

/-- Outcome of `build_historical_df` (src/bog.py lines 168-187).
`emptyRequest` is the failed `assert buoy_ids`; `createFailed` propagates
the first per-buoy failure (aborting the whole batch). -/
inductive BuildResult where
  | emptyRequest
  | createFailed (e : CreateResult)
  | done (d : DF)
deriving DecidableEq, Repr

/-- The list comprehension `[self.create_buoy_df(b, series) for b in buoy_ids]`
(src/bog.py line 181): sequential, aborted by the first exception. -/
def collectDfs (env : Env) (buoy_ids : List ℤ) (blist : List ℤ)
    (series : Option (List String)) : Except CreateResult (List DF) × List Request :=
  match blist with
  | [] => (Except.ok [], [])
  | b :: rest =>
    match create_buoy_df env buoy_ids b series with
    | (CreateResult.df d, log1) =>
      let (res, log2) := collectDfs env buoy_ids rest series
      (res.map fun ds => d :: ds, log1 ++ log2)
    | (e, log1) => (Except.error e, log1)

/-- `build_historical_df(buoy_ids, series=None)` (src/bog.py lines 168-187):
asserts a non-empty id list, builds one frame per buoy, concatenates with
`ignore_index=True`, then logs out.  The saved file is an external
collaborator and is not modelled; the returned `DF` is `final_df`. -/
def build_historical_df (env : Env) (buoy_ids : List ℤ) (blist : List ℤ)
    (series : Option (List String)) : BuildResult × List Request :=
  if blist.isEmpty then
    (BuildResult.emptyRequest, [])
  else
    match collectDfs env buoy_ids blist series with
    | (Except.error e, log) => (BuildResult.createFailed e, log)
    | (Except.ok dfs, log) =>
      (BuildResult.done (pdConcat dfs), log ++ [Request.logoutPost])

/-- Local session state of `BOG_API`: the bearer token and the cached
authorized buoy-id set. -/
structure Session where
  token : Option String
  buoy_ids : List ℤ
deriving DecidableEq, Repr

/-- `logout` (src/bog.py lines 71-79): posts the logout request; if the post
raises, re-raises `Exception("Logout Failed")`.  The body reads no local
state and writes none, so the session comes back unchanged in both
branches. -/
def logout (st : Session) (postRaises : Bool) :
    Except String Unit × Session × List Request :=
  if postRaises then
    (Except.error "Logout Failed", st, [Request.logoutPost])
  else
    (Except.ok (), st, [Request.logoutPost])

/-- The rational value 0.5 written in normalised form, so that the kernel
can evaluate comparisons on it (`Rat.ofScientific` does not reduce). -/
def rat_half : ℚ := ⟨1, 2, by decide, by decide⟩

/-- The rational value 0.6 written in normalised form. -/
def rat_threeFifths : ℚ := ⟨3, 5, by decide, by decide⟩

/-- A successful HTTP response's metadata. -/
def okMeta : HttpMeta := { ok := true, status_code := 200, reason := "OK", text := "" }

/-- A failed HTTP response's metadata. -/
def errMeta : HttpMeta :=
  { ok := false, status_code := 500, reason := "Internal Server Error", text := "boom" }

/-- Login responses where the first two attempts fail and the third
succeeds with token `"tok3"`. -/
def demoAuthResp : ℕ → AuthResponse := fun n =>
  if n = 3 then { meta := okMeta, token := "tok3" }
  else { meta := errMeta, token := "" }

/-- Login responses where every attempt fails. -/
def demoAuthRespFail : ℕ → AuthResponse := fun _ => { meta := errMeta, token := "" }

/-- The historical payload of the spec's scenario for buoy 133:
`wave_height = [[1, 0.5], [2, 0.6]]`, `wind_speed = [[1, 10], [3, 12]]`. -/
def c4payload : ReportsJson :=
  { series := [("wave_height", [(1, rat_half), (2, rat_threeFifths)]),
               ("wind_speed", [(1, 10), (3, 12)])] }

/-- Transport oracle for the spec's buoy-133 scenario: the status request
advertises series `["wave_height", "wind_speed"]` and the reports request
returns `c4payload`. -/
def demoEnvC4 : Env :=
  { statusResp := fun i =>
      if i = 133 then
        Except.ok { meta := okMeta, json := { series := ["wave_height", "wind_speed"] } }
      else
        Except.error (),
    reportsResp := fun i s =>
      if i = 133 ∧ s = ["wave_height", "wind_speed"] then
        Except.ok { meta := okMeta, json := c4payload }
      else
        Except.error () }

/-- Transport oracle whose status endpoint answers buoy 133 with a non-OK
response (HTTP 500) and no exception. -/
def demoEnvNonOK : Env :=
  { statusResp := fun i =>
      if i = 133 then
        Except.ok { meta := errMeta, json := { series := [] } }
      else
        Except.error (),
    reportsResp := fun _ _ => Except.error () }

/-- Transport oracle for two buoys (ids 1 and 2), each with a single
available series `"h"` holding one point. -/
def demoEnvFleet : Env :=
  { statusResp := fun i =>
      if i = 1 ∨ i = 2 then
        Except.ok { meta := okMeta, json := { series := ["h"] } }
      else
        Except.error (),
    reportsResp := fun i s =>
      if i = 1 ∧ s = ["h"] then
        Except.ok { meta := okMeta, json := { series := [("h", [(1, 5)])] } }
      else if i = 2 ∧ s = ["h"] then
        Except.ok { meta := okMeta, json := { series := [("h", [(2, 7)])] } }
      else
        Except.error () }

/-- A live session: token present, one authorized buoy. -/
def demoSession : Session := { token := some "tok", buoy_ids := [133] }

/-- The BuoyTable `create_buoy_df` builds for buoy 1 of `demoEnvFleet`. -/
def fleetDF1 : DF := { cols := ["buoy_id", "time", "h"], rows := [[1, 1, 5]] }

/-- The BuoyTable `create_buoy_df` builds for buoy 2 of `demoEnvFleet`. -/
def fleetDF2 : DF := { cols := ["buoy_id", "time", "h"], rows := [[2, 2, 7]] }

/-- Observer on a table: some row carries value `t` in the `"time"` column
and value `x` in column `col` (the pandas lookup `df[col]` at `df.time == t`). -/
def dfEntry (d : DF) (col : String) (t x : ℚ) : Prop :=
  ∃ r ∈ d.rows, r.get? (List.indexOf "time" d.cols) = some t ∧
    r.get? (List.indexOf col d.cols) = some x

/-- The buoy-133 table built from `c4payload` in its given order. -/
def df133a : DF :=
  { cols := ["buoy_id", "time", "wave_height", "wind_speed"],
    rows := [[133, 1, rat_half, 10]] }

/-- The buoy-133 table built from `c4payload` with its two series swapped. -/
def df133b : DF :=
  { cols := ["buoy_id", "time", "wind_speed", "wave_height"],
    rows := [[133, 1, 10, rat_half]] }

/-- Unfolded form of `get_token`: the three requests in order, first OK wins,
a third failure raises. -/
theorem get_token_eq (resp : ℕ → AuthResponse) :
    get_token resp =
      if (resp 1).meta.ok then AuthResult.ok (resp 1).token 1
      else if (resp 2).meta.ok then AuthResult.ok (resp 2).token 2
      else if (resp 3).meta.ok then AuthResult.ok (resp 3).token 3
      else AuthResult.authError (resp 3).meta.status_code (resp 3).meta.reason
            (resp 3).meta.text 3 := by
  show get_token_go resp 0 = _
  simp [get_token_go.eq_def, MAX_API_CALLS]

/-- C2: `get_token` issues at most 3 login requests (the `requests` count in
every reachable outcome below is at most 3, and the outcomes below are
exhaustive over the first three responses): the first OK response among the
first three attempts stores its token and stops, with exactly that many
requests issued; if all three attempts fail, exactly 3 requests are issued
and the authentication error raised on the 3rd attempt carries the final
response's status code, reason and body. -/
theorem get_token_retry_spec (resp : ℕ → AuthResponse) :
    ((resp 1).meta.ok = true → get_token resp = AuthResult.ok (resp 1).token 1) ∧
    ((resp 1).meta.ok = false → (resp 2).meta.ok = true →
        get_token resp = AuthResult.ok (resp 2).token 2) ∧
    ((resp 1).meta.ok = false → (resp 2).meta.ok = false → (resp 3).meta.ok = true →
        get_token resp = AuthResult.ok (resp 3).token 3) ∧
    ((resp 1).meta.ok = false → (resp 2).meta.ok = false → (resp 3).meta.ok = false →
        get_token resp = AuthResult.authError (resp 3).meta.status_code
          (resp 3).meta.reason (resp 3).meta.text 3) := by
  rw [get_token_eq]
  refine ⟨fun h1 => by simp [h1], fun h1 h2 => by simp [h1, h2],
    fun h1 h2 h3 => by simp [h1, h2, h3], fun h1 h2 h3 => by simp [h1, h2, h3]⟩

/-- C2 witness: with the first two attempts failing and the third OK, the
token of the third response is stored after exactly 3 requests; with all
attempts failing, the error carries HTTP 500, its reason and body, after
exactly 3 requests. -/
theorem get_token_retry_spec_witness :
    get_token demoAuthResp = AuthResult.ok "tok3" 3 ∧
    get_token demoAuthRespFail =
      AuthResult.authError 500 "Internal Server Error" "boom" 3 :=
  ⟨(get_token_retry_spec demoAuthResp).2.2.1 (by decide) (by decide) (by decide),
   (get_token_retry_spec demoAuthRespFail).2.2.2 (by decide) (by decide) (by decide)⟩

/-- C3 counterexample: for authorized buoy 133 whose status request gets a
non-OK response (HTTP 500) with no exception, `get_current_status` returns
the absent result (`None`) and does not raise `StatusFetchError` — contrary
to the claim that every transport failure raises. -/
theorem get_current_status_nonOK_counterexample :
    (get_current_status demoEnvNonOK [133] 133 true).1 = StatusResult.none_returned ∧
    (get_current_status demoEnvNonOK [133] 133 true).1 ≠ StatusResult.fetchError := by
  decide

/-- C3 (amended): for an in-scope buoy (or with the check disabled),
`get_current_status` issues exactly one status request; it returns the
parsed status on an OK response, raises on a transport-level exception, but
on a non-OK response it returns an absent result (`None`) without raising. -/
theorem get_current_status_transport_spec (env : Env) (buoy_ids : List ℤ)
    (buoy_id : ℤ) (check : Bool)
    (hscope : check = false ∨ buoy_id ∈ buoy_ids) :
    (∀ r, env.statusResp buoy_id = Except.ok r → r.meta.ok = true →
        get_current_status env buoy_ids buoy_id check =
          (StatusResult.json r.json, [Request.details buoy_id])) ∧
    (∀ r, env.statusResp buoy_id = Except.ok r → r.meta.ok = false →
        get_current_status env buoy_ids buoy_id check =
          (StatusResult.none_returned, [Request.details buoy_id])) ∧
    (∀ e, env.statusResp buoy_id = Except.error e →
        get_current_status env buoy_ids buoy_id check =
          (StatusResult.fetchError, [Request.details buoy_id])) := by
  have hcond : ¬ (check = true ∧ buoy_id ∉ buoy_ids) := by
    rcases hscope with h | h
    · simp [h]
    · simp [h]
  refine ⟨fun r hr hok => ?_, fun r hr hok => ?_, fun e he => ?_⟩
  · simp [get_current_status, hcond, hr, hok]
  · simp [get_current_status, hcond, hr, hok]
  · simp [get_current_status, hcond, he]

/-- C3 witness: concrete OK and non-OK runs of the amended statement. -/
theorem get_current_status_transport_spec_witness :
    get_current_status demoEnvC4 [133] 133 true =
      (StatusResult.json { series := ["wave_height", "wind_speed"] },
       [Request.details 133]) ∧
    get_current_status demoEnvNonOK [133] 133 true =
      (StatusResult.none_returned, [Request.details 133]) :=
  ⟨(get_current_status_transport_spec demoEnvC4 [133] 133 true
      (Or.inr (by decide))).1
      { meta := okMeta, json := { series := ["wave_height", "wind_speed"] } }
      rfl rfl,
   (get_current_status_transport_spec demoEnvNonOK [133] 133 true
      (Or.inr (by decide))).2.1
      { meta := errMeta, json := { series := [] } } rfl rfl⟩

/-- C6: for a buoy outside the authorized set, `get_current_status` with the
scope check enabled raises the scope assertion and issues no network call
(the request log is empty): the check is purely local. -/
theorem get_current_status_scope_check (env : Env) (buoy_ids : List ℤ)
    (buoy_id : ℤ) (hid : buoy_id ∉ buoy_ids) :
    get_current_status env buoy_ids buoy_id true = (StatusResult.scopeError, []) := by
  simp [get_current_status, hid]

/-- C6 witness: buoy 134 is not in the authorized set `[133]`. -/
theorem get_current_status_scope_check_witness :
    get_current_status demoEnvC4 [133] 134 true = (StatusResult.scopeError, []) :=
  get_current_status_scope_check demoEnvC4 [133] 134 (by decide)

/-- C8 counterexample: after `logout` completes — in the success case and in
the `LogoutError` case alike — the locally stored token is NOT invalidated:
it is still `some "tok"`, not absent, contrary to the claim. -/
theorem logout_token_counterexample :
    (logout demoSession false).2.1.token = some "tok" ∧
    (logout demoSession false).2.1.token ≠ none ∧
    (logout demoSession true).2.1.token ≠ none := by
  decide

/-- C8 (amended): `logout` leaves the whole local session state unchanged —
the token keeps its stored value (it is only treated as invalid by
convention) and the authorized-id set is untouched; a transport failure
raises `Exception("Logout Failed")`, success returns nothing. -/
theorem logout_frame (st : Session) (postRaises : Bool) :
    (logout st postRaises).2.1 = st ∧
    (postRaises = false → (logout st postRaises).1 = Except.ok ()) ∧
    (postRaises = true → (logout st postRaises).1 = Except.error "Logout Failed") := by
  cases postRaises <;> simp [logout]

/-- C8 witness: the failing-logout case at a concrete session. -/
theorem logout_frame_witness :
    (logout demoSession true).2.1 = demoSession ∧
    (logout demoSession true).1 = Except.error "Logout Failed" :=
  ⟨(logout_frame demoSession true).1, (logout_frame demoSession true).2.2 rfl⟩

/-- C5: for an authorized buoy whose status request succeeds, a requested
variable list containing a variable outside the advertised available set
makes `create_buoy_df` fail with the invalid-variable assertion, and the
request log contains only the one status request — no historical-data
request was issued. -/
theorem create_buoy_df_invalidVariable (env : Env) (buoy_ids : List ℤ)
    (buoy_id : ℤ) (l : List String) (sr : StatusResponse)
    (hid : buoy_id ∈ buoy_ids)
    (hsr : env.statusResp buoy_id = Except.ok sr)
    (hok : sr.meta.ok = true)
    (hbad : ∃ v ∈ l, v ∉ sr.json.series) :
    create_buoy_df env buoy_ids buoy_id (some l) =
      (CreateResult.invalidVariable, [Request.details buoy_id]) := by
  obtain ⟨v, hvl, hvs⟩ := hbad
  have hne : l.isEmpty = false := by
    cases l with
    | nil => cases hvl
    | cons a t => rfl
  have hstat : get_current_status env buoy_ids buoy_id true =
      (StatusResult.json sr.json, [Request.details buoy_id]) := by
    simp [get_current_status, hid, hsr, hok]
  have hall : l.all (fun w => decide (w ∈ sr.json.series)) = false := by
    rw [List.all_eq_false]
    exact ⟨v, hvl, by simpa using hvs⟩
  simp [create_buoy_df, hid, hstat, resolveSeries, hne, hall]

/-- C5 witness: requesting `["wave_height", "bogus"]` from buoy 133, whose
available set is `["wave_height", "wind_speed"]`, fails with the
invalid-variable assertion after only the status request. -/
theorem create_buoy_df_invalidVariable_witness :
    create_buoy_df demoEnvC4 [133] 133 (some ["wave_height", "bogus"]) =
      (CreateResult.invalidVariable, [Request.details 133]) :=
  create_buoy_df_invalidVariable demoEnvC4 [133] 133 ["wave_height", "bogus"]
    { meta := okMeta, json := { series := ["wave_height", "wind_speed"] } }
    (by decide) rfl rfl ⟨"bogus", by decide, by decide⟩

/-- C10: passing an explicitly empty variables list to `get_historical_data`
or `create_buoy_df` behaves identically to leaving it unspecified (`None`),
because emptiness is tested by falsiness; in the successful-status case the
reports request then asks for the buoy's full available-series set. -/
theorem empty_series_defaults (env : Env) (buoy_ids : List ℤ) (buoy_id : ℤ) :
    get_historical_data env buoy_ids buoy_id (some []) =
      get_historical_data env buoy_ids buoy_id none ∧
    create_buoy_df env buoy_ids buoy_id (some []) =
      create_buoy_df env buoy_ids buoy_id none ∧
    (∀ sr, buoy_id ∈ buoy_ids → env.statusResp buoy_id = Except.ok sr →
      sr.meta.ok = true →
      (get_historical_data env buoy_ids buoy_id (some [])).2 =
        [Request.details buoy_id, Request.reports buoy_id sr.json.series]) := by
  have h : resolveSeries (some []) = resolveSeries none := funext fun a => rfl
  refine ⟨?_, ?_, ?_⟩
  · simp only [get_historical_data, h]
  · simp only [create_buoy_df, get_historical_data, h]
  · intro sr hid hsr hok
    have hstat : get_current_status env buoy_ids buoy_id true =
        (StatusResult.json sr.json, [Request.details buoy_id]) := by
      simp [get_current_status, hid, hsr, hok]
    rw [get_historical_data, if_neg (not_not_intro hid), hstat]
    rcases hr : env.reportsResp buoy_id (resolveSeries (some []) sr.json.series)
      with e | r
    · simp [resolveSeries] at hr ⊢
      simp [hr]
    · rcases hok2 : r.meta.ok with _ | _ <;>
        · simp [resolveSeries] at hr ⊢
          simp [hr, hok2]

/-- C10 witness: for buoy 133, the empty list is replaced by the full
available set `["wave_height", "wind_speed"]` in the reports request. -/
theorem empty_series_defaults_witness :
    (get_historical_data demoEnvC4 [133] 133 (some [])).2 =
      [Request.details 133, Request.reports 133 ["wave_height", "wind_speed"]] :=
  (empty_series_defaults demoEnvC4 [133] 133).2.2
    { meta := okMeta, json := { series := ["wave_height", "wind_speed"] } }
    (by decide) rfl rfl

/-- When the per-buoy list comprehension of `build_historical_df` succeeds,
the collected frames correspond one-to-one, in order, to the per-buoy
results of `create_buoy_df`. -/
theorem collectDfs_ok_forall2 (env : Env) (buoy_ids : List ℤ)
    (series : Option (List String)) :
    ∀ (blist : List ℤ) (dfs : List DF),
      (collectDfs env buoy_ids blist series).1 = Except.ok dfs →
      List.Forall₂
        (fun b d => (create_buoy_df env buoy_ids b series).1 = CreateResult.df d)
        blist dfs := by
  intro blist
  induction blist with
  | nil =>
    intro dfs h
    simp only [collectDfs] at h
    cases h
    exact List.Forall₂.nil
  | cons b rest ih =>
    intro dfs h
    rw [collectDfs] at h
    rcases hc : create_buoy_df env buoy_ids b series with ⟨cr, log1⟩
    rw [hc] at h
    rcases hrec : collectDfs env buoy_ids rest series with ⟨res, log2⟩
    cases cr <;> simp [hrec] at h
    case df d =>
      cases res with
      | error e => simp [Except.map] at h
      | ok ds =>
        simp only [Except.map] at h
        cases h
        exact List.Forall₂.cons (by rw [hc]) (ih ds (by rw [hrec]))

/-- C7: `build_historical_df` on an empty buoy-id list fails the
non-emptiness assertion before any network call (empty request log); on a
non-empty list whose per-buoy builds all succeed, it builds one table per
id (in order: the collected frames are the per-buoy `create_buoy_df`
results, preserving the input order of `buoy_ids`) and concatenates them,
the concatenation's rows being the per-buoy rows joined in input order with
no index carried over (`ignore_index=True`). -/
theorem build_historical_df_spec :
    (∀ (env : Env) (buoy_ids : List ℤ) (series : Option (List String)),
        build_historical_df env buoy_ids [] series = (BuildResult.emptyRequest, [])) ∧
    (∀ (env : Env) (buoy_ids : List ℤ) (blist : List ℤ)
        (series : Option (List String)) (dfs : List DF),
        blist ≠ [] →
        (collectDfs env buoy_ids blist series).1 = Except.ok dfs →
        List.Forall₂
          (fun b d => (create_buoy_df env buoy_ids b series).1 = CreateResult.df d)
          blist dfs ∧
        (build_historical_df env buoy_ids blist series).1 =
          BuildResult.done (pdConcat dfs) ∧
        (pdConcat dfs).rows = dfs.bind DF.rows) := by
  constructor
  · intro env buoy_ids series
    rfl
  · intro env buoy_ids blist series dfs hne hc
    refine ⟨collectDfs_ok_forall2 env buoy_ids series blist dfs hc, ?_, rfl⟩
    rw [build_historical_df]
    rw [if_neg (by simpa using hne)]
    rcases h2 : collectDfs env buoy_ids blist series with ⟨res, log⟩
    rw [h2] at hc
    cases hc
    rfl

/-- C7 witness: the empty list short-circuits, and for buoys `[1, 2]` of the
fleet oracle the result concatenates the two per-buoy tables in input
order. -/
theorem build_historical_df_spec_witness :
    build_historical_df demoEnvFleet [1, 2] [] none = (BuildResult.emptyRequest, []) ∧
    (List.Forall₂
      (fun b d => (create_buoy_df demoEnvFleet [1, 2] b none).1 = CreateResult.df d)
      [1, 2] [fleetDF1, fleetDF2] ∧
    (build_historical_df demoEnvFleet [1, 2] [1, 2] none).1 =
      BuildResult.done (pdConcat [fleetDF1, fleetDF2]) ∧
    (pdConcat [fleetDF1, fleetDF2]).rows = [fleetDF1, fleetDF2].bind DF.rows) :=
  ⟨build_historical_df_spec.1 demoEnvFleet [1, 2] none,
   build_historical_df_spec.2 demoEnvFleet [1, 2] [1, 2] none [fleetDF1, fleetDF2]
     (by decide) rfl⟩

/-- The normalised literal `rat_half` is the decimal value 0.5. -/
theorem rat_half_eq : rat_half = 0.5 := by
  rw [rat_half, Rat.mk'_eq_divInt, Rat.divInt_eq_div]
  norm_num

/-- The normalised literal `rat_threeFifths` is the decimal value 0.6. -/
theorem rat_threeFifths_eq : rat_threeFifths = 0.6 := by
  rw [rat_threeFifths, Rat.mk'_eq_divInt, Rat.divInt_eq_div]
  norm_num

/-- C4: for buoy 133 with available series `["wave_height", "wind_speed"]`
and historical payload `wave_height = [[1, 0.5], [2, 0.6]]`,
`wind_speed = [[1, 10], [3, 12]]`, `create_buoy_df(133)` yields exactly one
row `buoy_id=133, time=1, wave_height=0.5, wind_speed=10`; timestamps 2 and
3 are dropped because they do not occur in every series. -/
theorem create_buoy_df_scenario133 :
    c4payload.series = [("wave_height", [(1, 0.5), (2, 0.6)]),
                        ("wind_speed", [(1, 10), (3, 12)])] ∧
    (create_buoy_df demoEnvC4 [133] 133 none).1 =
      CreateResult.df { cols := ["buoy_id", "time", "wave_height", "wind_speed"],
                        rows := [[133, 1, 0.5, 10]] } := by
  rw [show (0.5 : ℚ) = rat_half from rat_half_eq.symm,
      show (0.6 : ℚ) = rat_threeFifths from rat_threeFifths_eq.symm]
  decide

/-- From a pointwise witness function, a `Forall₂`-related list exists. -/
theorem exists_forall2_of_mem {α β : Type} (R : α → β → Prop) :
    ∀ (l : List α), (∀ p ∈ l, ∃ y, R p y) → ∃ ys, List.Forall₂ R l ys := by
  intro l
  induction l with
  | nil => intro _; exact ⟨[], List.Forall₂.nil⟩
  | cons a t ih =>
    intro h
    obtain ⟨y, hy⟩ := h a (by simp)
    obtain ⟨ys, hys⟩ := ih fun p hp => h p (by simp [hp])
    exact ⟨y :: ys, List.Forall₂.cons hy hys⟩

/-- A `Forall₂` gives a related element for every member of the left list. -/
theorem forall2_mem_left {α β : Type} {R : α → β → Prop} :
    ∀ {l : List α} {ys : List β}, List.Forall₂ R l ys → ∀ p ∈ l, ∃ y, R p y := by
  intro l ys h
  induction h with
  | nil => intro p hp; cases hp
  | cons hr _ ih =>
    intro p hp
    rcases List.mem_cons.mp hp with rfl | hp
    · exact ⟨_, hr⟩
    · exact ih p hp

/-- A `Forall₂`-related list can be built that carries a prescribed value at
a prescribed index. -/
theorem exists_forall2_with_get {α β : Type} (R : α → β → Prop) :
    ∀ (l : List α) (i : ℕ) (hi : i < l.length) (x : β),
      R (l.get ⟨i, hi⟩) x → (∀ p ∈ l, ∃ y, R p y) →
      ∃ ys, List.Forall₂ R l ys ∧ ys.get? i = some x := by
  intro l
  induction l with
  | nil => intro i hi; cases hi
  | cons a t ih =>
    intro i hi x hx hall
    cases i with
    | zero =>
      obtain ⟨ys, hys⟩ := exists_forall2_of_mem R t fun p hp => hall p (by simp [hp])
      exact ⟨x :: ys, List.Forall₂.cons hx hys, rfl⟩
    | succ n =>
      obtain ⟨ys, hys, hget⟩ := ih n (Nat.lt_of_succ_lt_succ hi) x hx
        fun p hp => hall p (by simp [hp])
      obtain ⟨y, hy⟩ := hall a (by simp)
      exact ⟨y :: ys, List.Forall₂.cons hy hys, by simpa using hget⟩

/-- Reading a `Forall₂`-related list at an index yields a related value. -/
theorem forall2_get {α β : Type} {R : α → β → Prop} {l : List α} {ys : List β}
    (h : List.Forall₂ R l ys) (i : ℕ) (hi : i < l.length) (x : β)
    (hx : ys.get? i = some x) : R (l.get ⟨i, hi⟩) x := by
  obtain ⟨hlen, hget⟩ := List.forall₂_iff_get.mp h
  obtain ⟨hi2, hx2⟩ := List.get?_eq_some.mp hx
  exact hx2 ▸ hget i hi hi2

/-- Row membership in the inner join of a frame (whose key column is in
front) with a two-column series frame. -/
theorem mem_pdMerge_seriesDF (l : DF) (cs : List String)
    (hc : l.cols = "time" :: cs) (v : String) (pts : List (ℚ × ℚ))
    (r : List ℚ) :
    r ∈ (pdMerge l (seriesDF v pts)).rows ↔
      ∃ a ∈ l.rows, ∃ p ∈ pts, a.get? 0 = some p.1 ∧ r = a ++ [p.2] := by
  simp only [pdMerge, seriesDF, hc, List.indexOf_cons_self, List.mem_bind,
    List.mem_map, List.mem_filter, decide_eq_true_eq]
  constructor
  · rintro ⟨a, ha, b, ⟨⟨p, hp, rfl⟩, hbeq⟩, rfl⟩
    exact ⟨a, ha, p, hp, by simpa using hbeq.symm, by simp⟩
  · rintro ⟨a, ha, p, hp, hget, rfl⟩
    exact ⟨a, ha, [p.1, p.2], ⟨⟨p, hp, rfl⟩, by simpa using hget.symm⟩, by simp⟩

/-- Columns of the inner join of a frame (key column in front) with a
two-column series frame. -/
theorem cols_pdMerge_seriesDF (l : DF) (cs : List String)
    (hc : l.cols = "time" :: cs) (v : String) (pts : List (ℚ × ℚ)) :
    (pdMerge l (seriesDF v pts)).cols = "time" :: (cs ++ [v]) := by
  simp [pdMerge, seriesDF, hc, List.indexOf_cons_self]

/-- Characterisation of the sequential inner join (`reduce(pd.merge, dfs)`)
over a list of series frames, starting from any accumulator whose key
column is in front: the columns extend by the payload variable names in
order, and a row survives exactly when it extends a row of the accumulator
by one value per remaining series, all sharing the accumulator row's
timestamp. -/
theorem foldl_pdMerge_seriesDF (rest : List (String × List (ℚ × ℚ))) :
    ∀ (acc : DF) (cs : List String), acc.cols = "time" :: cs →
      (List.foldl pdMerge acc (rest.map fun p => seriesDF p.1 p.2)).cols =
        "time" :: (cs ++ rest.map Prod.fst) ∧
      (∀ r, r ∈ (List.foldl pdMerge acc (rest.map fun p => seriesDF p.1 p.2)).rows ↔
        ∃ a ∈ acc.rows, ∃ xs,
          List.Forall₂
            (fun (p : String × List (ℚ × ℚ)) (x : ℚ) =>
              ∃ t, a.get? 0 = some t ∧ (t, x) ∈ p.2) rest xs ∧
          r = a ++ xs) := by
  induction rest with
  | nil =>
    intro acc cs hc
    refine ⟨by simpa using hc, fun r => ?_⟩
    constructor
    · intro hr
      exact ⟨r, hr, [], List.Forall₂.nil, by simp⟩
    · rintro ⟨a, ha, xs, hf, rfl⟩
      cases hf
      simpa using ha
  | cons p rest ih =>
    intro acc cs hc
    have hc' : (pdMerge acc (seriesDF p.1 p.2)).cols = "time" :: (cs ++ [p.1]) :=
      cols_pdMerge_seriesDF acc cs hc p.1 p.2
    obtain ⟨ihc, ihr⟩ := ih (pdMerge acc (seriesDF p.1 p.2)) (cs ++ [p.1]) hc'
    constructor
    · rw [List.map_cons, List.foldl_cons, ihc]
      simp
    · intro r
      rw [List.map_cons, List.foldl_cons, ihr r]
      constructor
      · rintro ⟨a', ha', xs, hf, rfl⟩
        rw [mem_pdMerge_seriesDF acc cs hc] at ha'
        obtain ⟨a, ha, q, hq, hget, rfl⟩ := ha'
        have halen : 0 < a.length := (List.get?_eq_some.mp hget).1
        refine ⟨a, ha, q.2 :: xs, ?_, by simp⟩
        refine List.Forall₂.cons ⟨q.1, hget, hq⟩ (hf.imp ?_)
        rintro p' x ⟨t, hget', hmem⟩
        refine ⟨t, ?_, hmem⟩
        rwa [List.get?_append halen] at hget'
      · rintro ⟨a, ha, xs, hf, rfl⟩
        rcases List.forall₂_cons_left_iff.mp hf with ⟨x, xs', ⟨t, hget, hmem⟩, hf', rfl⟩
        have halen : 0 < a.length := (List.get?_eq_some.mp hget).1
        refine ⟨a ++ [x], ?_, xs', ?_, by simp⟩
        · rw [mem_pdMerge_seriesDF acc cs hc]
          exact ⟨a, ha, (t, x), hmem, hget, rfl⟩
        · refine hf'.imp ?_
          rintro p' y ⟨t', hget', hmem'⟩
          exact ⟨t', by rwa [List.get?_append halen], hmem'⟩

/-- `renameVar` keeps the key column name unchanged. -/
theorem renameVar_time : renameVar "time" = "time" := by decide

/-- Full characterisation of the table `create_buoy_df` builds from a
non-empty historical payload: the columns are `buoy_id`, `time`, then the
payload variables in insertion order (renamed), and the rows are exactly
`[buoy_id, t, x₀, …, xₙ]` for the timestamps `t` present in every series,
with `xᵢ` the value series `i` carries at `t`. -/
theorem buoyTableOfPayload_spec (buoy_id : ℤ) (p0 : String × List (ℚ × ℚ))
    (rest : List (String × List (ℚ × ℚ))) :
    ∃ d, buoyTableOfPayload buoy_id (p0 :: rest) = some d ∧
      d.cols = "buoy_id" :: "time" :: (p0 :: rest).map (fun p => renameVar p.1) ∧
      (∀ r, r ∈ d.rows ↔ ∃ t ys,
        List.Forall₂ (fun (p : String × List (ℚ × ℚ)) y => (t, y) ∈ p.2)
          (p0 :: rest) ys ∧ r = (buoy_id : ℚ) :: t :: ys) := by
  obtain ⟨hcols, hrows⟩ :=
    foldl_pdMerge_seriesDF rest (seriesDF p0.1 p0.2) [p0.1] rfl
  refine ⟨_, rfl, ?_, ?_⟩
  · show ("buoy_id" ::
      (List.foldl pdMerge (seriesDF p0.1 p0.2)
        (rest.map fun p => seriesDF p.1 p.2)).cols.map
        (fun c => (renMap.lookup c).getD c)) = _
    rw [hcols]
    have ht : ((renMap.lookup "time").getD "time") = "time" := renameVar_time
    simp [ht, renameVar, List.map_map, Function.comp]
  · intro r
    show r ∈ (List.foldl pdMerge (seriesDF p0.1 p0.2)
        (rest.map fun p => seriesDF p.1 p.2)).rows.map
        (fun row => (buoy_id : ℚ) :: row) ↔ _
    rw [List.mem_map]
    constructor
    · rintro ⟨row, hrow, rfl⟩
      rw [hrows row] at hrow
      obtain ⟨a, ha, xs, hf, rfl⟩ := hrow
      simp only [seriesDF, List.mem_map] at ha
      obtain ⟨q, hq, rfl⟩ := ha
      refine ⟨q.1, q.2 :: xs, ?_, by simp⟩
      refine List.Forall₂.cons hq (hf.imp ?_)
      rintro p' x ⟨t', hget, hmem⟩
      cases hget
      exact hmem
    · rintro ⟨t, ys, hf, rfl⟩
      rcases List.forall₂_cons_left_iff.mp hf with ⟨y0, ys', hy0, hf', rfl⟩
      refine ⟨[t, y0] ++ ys', ?_, by simp⟩
      rw [hrows]
      refine ⟨[t, y0], ?_, ys', hf'.imp ?_, rfl⟩
      · simp only [seriesDF, List.mem_map]
        exact ⟨(t, y0), hy0, rfl⟩
      · rintro p' y hmem
        exact ⟨t, rfl, hmem⟩

/-- C1: for an authorized buoy, a requested variable list that is a subset
of the available series, and a reports payload keyed exactly by the
requested variables, `create_buoy_df` returns a table in which every row
has one value per column (no cell is absent: each row's length equals the
column count, and there is one column per requested variable, after the
position rename), and a timestamp appears in some row if and only if it
occurs in every requested variable's series — inner-join semantics. -/
theorem create_buoy_df_inner_join (env : Env) (buoy_ids : List ℤ) (buoy_id : ℤ)
    (series : Option (List String)) (sr : StatusResponse) (rr : ReportsResponse)
    (hid : buoy_id ∈ buoy_ids)
    (hsr : env.statusResp buoy_id = Except.ok sr)
    (hok : sr.meta.ok = true)
    (hsub : ∀ v ∈ resolveSeries series sr.json.series, v ∈ sr.json.series)
    (hrr : env.reportsResp buoy_id (resolveSeries series sr.json.series) =
      Except.ok rr)
    (hrok : rr.meta.ok = true)
    (hkeys : rr.json.series.map Prod.fst = resolveSeries series sr.json.series)
    (hne : rr.json.series ≠ []) :
    ∃ d, (create_buoy_df env buoy_ids buoy_id series).1 = CreateResult.df d ∧
      (∀ r ∈ d.rows, r.length = d.cols.length) ∧
      d.cols = "buoy_id" :: "time" ::
        (rr.json.series.map fun p => renameVar p.1) ∧
      (∀ t : ℚ, (∃ r ∈ d.rows, r.get? 1 = some t) ↔
        ∀ p ∈ rr.json.series, t ∈ p.2.map Prod.fst) := by
  have hstat : get_current_status env buoy_ids buoy_id true =
      (StatusResult.json sr.json, [Request.details buoy_id]) := by
    simp [get_current_status, hid, hsr, hok]
  set s := resolveSeries series sr.json.series with hs
  have hs_ne : s ≠ [] := by
    intro h0
    rw [h0] at hkeys
    exact hne (List.map_eq_nil.mp hkeys)
  have hres2 : resolveSeries (some s) sr.json.series = s := by
    cases hsv : s with
    | nil => exact absurd hsv hs_ne
    | cons a t => rfl
  have hhist : get_historical_data env buoy_ids buoy_id (some s) =
      (HistResult.json rr.json,
        [Request.details buoy_id, Request.reports buoy_id s]) := by
    rw [get_historical_data, if_neg (not_not_intro hid), hstat]
    simp [hres2, hrr, hrok]
  have hall : (s.all fun v => decide (v ∈ sr.json.series)) = true := by
    rw [List.all_eq_true]
    intro v hv
    simpa using hsub v hv
  rcases hps : rr.json.series with _ | ⟨p0, rest⟩
  · exact absurd hps hne
  obtain ⟨d, hd, hcols, hrows⟩ := buoyTableOfPayload_spec buoy_id p0 rest
  have hcreate : (create_buoy_df env buoy_ids buoy_id series).1 =
      CreateResult.df d := by
    rw [create_buoy_df, if_neg (not_not_intro hid), hstat]
    simp [hall, hhist, hps, hd]
  refine ⟨d, hcreate, ?_, ?_, ?_⟩
  · intro r hr
    obtain ⟨t, ys, hf, rfl⟩ := (hrows r).mp hr
    have hlen := hf.length_eq
    rw [hcols]
    simp at hlen ⊢
    omega
  · exact hcols
  · intro t
    constructor
    · rintro ⟨r, hr, hget⟩
      obtain ⟨t', ys, hf, rfl⟩ := (hrows r).mp hr
      simp only [List.get?_cons_succ, List.get?_cons_zero, Option.some.injEq] at hget
      rw [hget] at hf
      intro p hp
      obtain ⟨y, hy⟩ := forall2_mem_left hf p hp
      exact List.mem_map.mpr ⟨(t, y), hy, rfl⟩
    · intro hallp
      have hpts : ∀ p ∈ (p0 :: rest), ∃ y, (t, y) ∈ p.2 := by
        intro p hp
        obtain ⟨q, hq, hqe⟩ := List.mem_map.mp (hallp p hp)
        exact ⟨q.2, by rwa [show ((t, q.2) : ℚ × ℚ) = q from Prod.ext hqe.symm rfl]⟩
      obtain ⟨ys, hys⟩ := exists_forall2_of_mem _ (p0 :: rest) hpts
      exact ⟨_, (hrows _).mpr ⟨t, ys, hys, rfl⟩, by simp⟩

/-- C1 witness: the buoy-133 scenario instantiates the inner-join guarantee. -/
theorem create_buoy_df_inner_join_witness :
    ∃ d, (create_buoy_df demoEnvC4 [133] 133 none).1 = CreateResult.df d ∧
      (∀ r ∈ d.rows, r.length = d.cols.length) ∧
      d.cols = "buoy_id" :: "time" ::
        (c4payload.series.map fun p => renameVar p.1) ∧
      (∀ t : ℚ, (∃ r ∈ d.rows, r.get? 1 = some t) ↔
        ∀ p ∈ c4payload.series, t ∈ p.2.map Prod.fst) :=
  create_buoy_df_inner_join demoEnvC4 [133] 133 none
    { meta := okMeta, json := { series := ["wave_height", "wind_speed"] } }
    { meta := okMeta, json := c4payload }
    (by decide) rfl rfl (by decide) rfl rfl (by decide) (by decide)


set_option maxHeartbeats 1000000 in
/-- The entries of a column of the table built from a payload, reduced to a
statement symmetric in the payload's order: `(t, x)` is an entry of
variable `v`'s column exactly when `v`'s series carries `(t, x)` and the
timestamp `t` survives the inner join (occurs in every series). -/
theorem dfEntry_buoyTable (buoy_id : ℤ) (p0 : String × List (ℚ × ℚ))
    (rest : List (String × List (ℚ × ℚ))) (d : DF)
    (hd : buoyTableOfPayload buoy_id (p0 :: rest) = some d)
    (hnd : ((p0 :: rest).map fun p => renameVar p.1).Nodup)
    (ht : "time" ∉ (p0 :: rest).map fun p => renameVar p.1)
    (hb : "buoy_id" ∉ (p0 :: rest).map fun p => renameVar p.1)
    (v : String) (pts : List (ℚ × ℚ)) (hv : (v, pts) ∈ (p0 :: rest))
    (t x : ℚ) :
    dfEntry d (renameVar v) t x ↔
      ((t, x) ∈ pts ∧ ∀ p ∈ (p0 :: rest), ∃ y, (t, y) ∈ p.2) := by
  obtain ⟨d2, hd2, hcols, hrows⟩ := buoyTableOfPayload_spec buoy_id p0 rest
  rw [hd] at hd2
  obtain rfl : d = d2 := by cases hd2; rfl
  have hvL : renameVar v ∈ (p0 :: rest).map fun p => renameVar p.1 :=
    List.mem_map.mpr ⟨(v, pts), hv, rfl⟩
  have htime : List.indexOf "time" d.cols = 1 := by
    rw [hcols, List.indexOf_cons_ne _ (by decide), List.indexOf_cons_self]
  have hbv : ("buoy_id" : String) ≠ renameVar v := fun h => hb (h ▸ hvL)
  have htv : ("time" : String) ≠ renameVar v := fun h => ht (h ▸ hvL)
  have hcol : List.indexOf (renameVar v) d.cols =
      (List.indexOf (renameVar v) ((p0 :: rest).map fun p => renameVar p.1)) + 2 := by
    rw [hcols, List.indexOf_cons_ne _ hbv, List.indexOf_cons_ne _ htv]
  have hiL : List.indexOf (renameVar v) ((p0 :: rest).map fun p => renameVar p.1) <
      ((p0 :: rest).map fun p => renameVar p.1).length :=
    List.indexOf_lt_length.mpr hvL
  have hips : List.indexOf (renameVar v) ((p0 :: rest).map fun p => renameVar p.1) <
      (p0 :: rest).length := by simpa using hiL
  have hgetv : (p0 :: rest).get
      ⟨List.indexOf (renameVar v) ((p0 :: rest).map fun p => renameVar p.1), hips⟩ =
      (v, pts) := by
    obtain ⟨j, hj⟩ := List.mem_iff_get.mp hv
    have hLj : ((p0 :: rest).map fun p => renameVar p.1).get
        ⟨j.1, by simpa using j.2⟩ = renameVar v := by
      rw [List.get_map]
      exact congrArg (fun q : String × List (ℚ × ℚ) => renameVar q.1) hj
    have hLi : ((p0 :: rest).map fun p => renameVar p.1).get
        ⟨List.indexOf (renameVar v) ((p0 :: rest).map fun p => renameVar p.1), hiL⟩ =
        renameVar v := List.indexOf_get hiL
    have hij := (hnd.get_inj_iff).mp (hLi.trans hLj.symm)
    have hidx : List.indexOf (renameVar v) ((p0 :: rest).map fun p => renameVar p.1) =
        j.1 := congrArg Fin.val hij
    have hfin : (⟨List.indexOf (renameVar v) ((p0 :: rest).map fun p => renameVar p.1),
        hips⟩ : Fin (p0 :: rest).length) = j := Fin.ext (by simpa using hidx)
    rw [hfin, hj]
  constructor
  · rintro ⟨r, hr, hrt, hrx⟩
    obtain ⟨t2, ys, hf, rfl⟩ := (hrows r).mp hr
    rw [htime] at hrt
    simp only [List.get?_cons_succ, List.get?_cons_zero, Option.some.injEq] at hrt
    rw [hrt] at hf
    rw [hcol] at hrx
    have hrx2 : ys.get? (List.indexOf (renameVar v)
        ((p0 :: rest).map fun p => renameVar p.1)) = some x := by
      simpa [List.get?_cons_succ] using hrx
    have hmem := forall2_get hf
      (List.indexOf (renameVar v) ((p0 :: rest).map fun p => renameVar p.1))
      hips x hrx2
    rw [hgetv] at hmem
    exact ⟨hmem, forall2_mem_left hf⟩
  · rintro ⟨hx, hall⟩
    obtain ⟨ys, hf, hget⟩ := exists_forall2_with_get
      (fun (p : String × List (ℚ × ℚ)) (y : ℚ) => (t, y) ∈ p.2) (p0 :: rest)
      (List.indexOf (renameVar v) ((p0 :: rest).map fun p => renameVar p.1))
      hips x (by rw [hgetv]; exact hx) hall
    refine ⟨(buoy_id : ℚ) :: t :: ys, (hrows _).mpr ⟨t, ys, hf, rfl⟩, ?_, ?_⟩
    · rw [htime]
      rfl
    · rw [hcol]
      simpa [List.get?_cons_succ] using hget

/-- The surviving timestamps of the table built from a payload: exactly
those occurring in every series of the payload. -/
theorem dfTimes_buoyTable (buoy_id : ℤ) (p0 : String × List (ℚ × ℚ))
    (rest : List (String × List (ℚ × ℚ))) (d : DF)
    (hd : buoyTableOfPayload buoy_id (p0 :: rest) = some d) (t : ℚ) :
    (∃ r ∈ d.rows, r.get? (List.indexOf "time" d.cols) = some t) ↔
      ∀ p ∈ (p0 :: rest), ∃ y, (t, y) ∈ p.2 := by
  obtain ⟨d2, hd2, hcols, hrows⟩ := buoyTableOfPayload_spec buoy_id p0 rest
  rw [hd] at hd2
  obtain rfl : d = d2 := by cases hd2; rfl
  have htime : List.indexOf "time" d.cols = 1 := by
    rw [hcols, List.indexOf_cons_ne _ (by decide), List.indexOf_cons_self]
  rw [htime]
  constructor
  · rintro ⟨r, hr, hget⟩
    obtain ⟨t2, ys, hf, rfl⟩ := (hrows r).mp hr
    simp only [List.get?_cons_succ, List.get?_cons_zero, Option.some.injEq] at hget
    rw [hget] at hf
    exact forall2_mem_left hf
  · intro hall
    obtain ⟨ys, hf⟩ := exists_forall2_of_mem _ (p0 :: rest) hall
    exact ⟨_, (hrows _).mpr ⟨t, ys, hf, rfl⟩, rfl⟩

/-- C9: the row content of the table built by `create_buoy_df`'s join
pipeline is independent of the insertion order of the payload's variable
series: permuting the payload changes at most the column order — the set of
surviving timestamps and each variable's (timestamp, value) entries are
unchanged.  (Side conditions: the renamed variable names are distinct and
clash with neither `"time"` nor `"buoy_id"`, as holds for any payload whose
dict keys name distinct sensor variables.) -/
theorem buoyTable_order_independent (buoy_id : ℤ)
    (ps qs : List (String × List (ℚ × ℚ)))
    (hperm : ps.Perm qs)
    (hnd : (ps.map fun p => renameVar p.1).Nodup)
    (ht : "time" ∉ ps.map fun p => renameVar p.1)
    (hb : "buoy_id" ∉ ps.map fun p => renameVar p.1)
    (d₁ d₂ : DF)
    (h₁ : buoyTableOfPayload buoy_id ps = some d₁)
    (h₂ : buoyTableOfPayload buoy_id qs = some d₂) :
    (∀ t : ℚ, (∃ r ∈ d₁.rows, r.get? (List.indexOf "time" d₁.cols) = some t) ↔
              (∃ r ∈ d₂.rows, r.get? (List.indexOf "time" d₂.cols) = some t)) ∧
    (∀ v pts, (v, pts) ∈ ps → ∀ t x,
        dfEntry d₁ (renameVar v) t x ↔ dfEntry d₂ (renameVar v) t x) := by
  cases ps with
  | nil => simp [buoyTableOfPayload] at h₁
  | cons p0 prest =>
  cases qs with
  | nil => simp [buoyTableOfPayload] at h₂
  | cons q0 qrest =>
  have hmapperm : ((p0 :: prest).map fun p => renameVar p.1).Perm
      ((q0 :: qrest).map fun p => renameVar p.1) := hperm.map _
  have hnd2 : ((q0 :: qrest).map fun p => renameVar p.1).Nodup :=
    hmapperm.nodup_iff.mp hnd
  have ht2 : "time" ∉ (q0 :: qrest).map fun p => renameVar p.1 :=
    fun h => ht (hmapperm.mem_iff.mpr h)
  have hb2 : "buoy_id" ∉ (q0 :: qrest).map fun p => renameVar p.1 :=
    fun h => hb (hmapperm.mem_iff.mpr h)
  constructor
  · intro t
    rw [dfTimes_buoyTable buoy_id p0 prest d₁ h₁ t,
        dfTimes_buoyTable buoy_id q0 qrest d₂ h₂ t]
    exact ⟨fun h p hp => h p (hperm.mem_iff.mpr hp),
           fun h p hp => h p (hperm.mem_iff.mp hp)⟩
  · intro v pts hv t x
    have hv2 : (v, pts) ∈ q0 :: qrest := hperm.subset hv
    rw [dfEntry_buoyTable buoy_id p0 prest d₁ h₁ hnd ht hb v pts hv t x,
        dfEntry_buoyTable buoy_id q0 qrest d₂ h₂ hnd2 ht2 hb2 v pts hv2 t x]
    exact ⟨fun h => ⟨h.1, fun p hp => h.2 p (hperm.mem_iff.mpr hp)⟩,
           fun h => ⟨h.1, fun p hp => h.2 p (hperm.mem_iff.mp hp)⟩⟩

/-- C9 witness: swapping the two series of the buoy-133 payload leaves both
the surviving timestamp set (checked at `t = 1`) and the wave-height
entries (checked at `(1, 0.5)`) unchanged, though the column order differs
between `df133a` and `df133b`. -/
theorem buoyTable_order_independent_witness :
    ((∃ r ∈ df133a.rows, r.get? (List.indexOf "time" df133a.cols) = some 1) ↔
     (∃ r ∈ df133b.rows, r.get? (List.indexOf "time" df133b.cols) = some 1)) ∧
    (dfEntry df133a (renameVar "wave_height") 1 rat_half ↔
     dfEntry df133b (renameVar "wave_height") 1 rat_half) :=
  have h := buoyTable_order_independent 133 c4payload.series
    [("wind_speed", [(1, 10), (3, 12)]),
     ("wave_height", [(1, rat_half), (2, rat_threeFifths)])]
    (List.Perm.swap ("wind_speed", [(1, 10), (3, 12)])
      ("wave_height", [(1, rat_half), (2, rat_threeFifths)]) [])
    (by decide) (by decide) (by decide) df133a df133b rfl rfl
  ⟨h.1 1, h.2 "wave_height" [(1, rat_half), (2, rat_threeFifths)] (by decide) 1 rat_half⟩
